import Mathlib

/-!
Shallow embedding of the dgit file-intake module (`dgitcore/datasets/files.py`)
and of the instrumentation base framework (`dgitcore/instrumentation.py`).

Python dicts that serve as file records are embedded as insertion-ordered
association lists from string keys to JSON-like values, so that presence of a
key with value `None` is distinguishable from absence of the key.  Calls into
the operating system and into collaborator modules that are outside the
excerpt (`os.path.*`, `uuid.uuid1`, `mimetypes.guess_type`,
`helper.compute_sha256`, `fnmatch.fnmatch`, the repository manager) are
modelled as an explicit environment of functions.
-/

namespace Dgit

/-- JSON-like values appearing in a file record.  `JVal.n` is Python `None`
(JSON `null`). -/
inductive JVal where
  | s (v : String)
  | b (v : Bool)
  | n
  deriving DecidableEq, Repr

/-- A Python dict with string keys, as an insertion-ordered association
list.  Keys are unique by construction in every record built below. -/
abbrev Record := List (String × JVal)

/-- Python `mimetypes.guess_type(f)[0]` returns `None` or a string. -/
def JVal.ofOpt : Option String → JVal
  | none => JVal.n
  | some v => JVal.s v

/-- Python `d[k] = v`: replace the first binding of `k` in place, keeping
insertion order, else append the new binding at the end. -/
def dset : Record → String → JVal → Record
  | [], k, v => [(k, v)]
  | (k0, v0) :: rest, k, v =>
    if k0 = k then (k, v) :: rest else (k0, v0) :: dset rest k v

/-- Boolean infix test on character lists (Python `needle in haystack`). -/
def infixOfB (pat : List Char) : List Char → Bool
  | [] => pat.isEmpty
  | c :: rest => pat.isPrefixOf (c :: rest) || infixOfB pat rest

/-- Python substring containment `pat in s`. -/
def containsSubstr (s pat : String) : Bool := infixOfB pat.data s.data

/-- Python `os.path.basename`: the characters of the path after the last slash. -/
def basename (p : String) : String :=
  String.mk (p.data.foldl (fun acc c => if c = '/' then [] else acc ++ [c]) [])

/-- Whether a string starts with a slash. -/
def startsWithSlash (s : String) : Bool :=
  match s.data with
  | [] => false
  | c :: _ => c = '/'

/-- Whether a string ends with a slash. -/
def endsWithSlash (s : String) : Bool :=
  match s.data.getLast? with
  | none => false
  | some c => c = '/'

/-- Python `os.path.join` on POSIX, two components: an absolute second component
wins; otherwise the components are glued with exactly one slash. -/
def joinPath (a bpart : String) : String :=
  if startsWithSlash bpart then bpart
  else if a = "" || endsWithSlash a then a ++ bpart
  else a ++ "/" ++ bpart

/-- ASCII whitespace, as stripped by Python `str.strip()` (the trace log is
ASCII; wider Unicode whitespace is not modelled). -/
def isSpaceChar (c : Char) : Bool :=
  c = ' ' || c = Char.ofNat 9 || c = Char.ofNat 10 || c = Char.ofNat 13 ||
    c = Char.ofNat 11 || c = Char.ofNat 12

/-- Python `l.strip()`: drop leading and trailing whitespace. -/
def pyStrip (s : String) : String :=
  String.mk (((s.data.dropWhile isSpaceChar).reverse.dropWhile isSpaceChar).reverse)

/-- Ambient process state and boundary collaborators used by the intake
functions (`files.py`): `compute_sha256` from the helper module,
`mimetypes.guess_type(f)[0]`, `os.path.relpath(f, os.getcwd())`, and the
stream of values produced by successive `uuid.uuid1()` calls (indexed by
the number of uuids generated so far in the batch). -/
structure Env where
  sha256 : String → String
  mimeGuess : String → Option String
  relpathCwd : String → String
  uuidGen : Nat → String

/-- Embedding of `add_link(f)` (files.py lines 24-36): record for a remote link.  Note
that `localfullpath` and `localrelativepath` are present with value `None`.
`uid` indexes the `uuid.uuid1()` call. -/
def add_link (env : Env) (f : String) (uid : Nat) : String × Record :=
  (f, [("type", JVal.s "data"),
       ("generator", JVal.b false),
       ("uuid", JVal.s (env.uuidGen uid)),
       ("relativepath", JVal.s f),
       ("mimetypes", JVal.s ""),
       ("content", JVal.s ""),
       ("sha256", JVal.s ""),
       ("localfullpath", JVal.n),
       ("localrelativepath", JVal.n)])

/-- Embedding of `add_file_normal(f, targetdir, generator, script, source)` (files.py
lines 38-69): record for a local file, keyed by its basename. -/
def add_file_normal (env : Env) (f targetdir : String) (generator script : Bool)
    (source : String) (uid : Nat) : String × Record :=
  let bname := basename f
  let relativepath := if targetdir ≠ "." then joinPath targetdir bname else bname
  let relpath := env.relpathCwd f
  let filetype :=
    if script then (if generator then "generator" else "script") else "data"
  (bname,
   [("type", JVal.s filetype),
    ("generator", JVal.b generator),
    ("uuid", JVal.s (env.uuidGen uid)),
    ("relativepath", JVal.s relativepath),
    ("mimetypes", JVal.ofOpt (env.mimeGuess f)),
    ("content", JVal.s ""),
    ("source", JVal.s source),
    ("sha256", JVal.s (env.sha256 f)),
    ("localfullpath", JVal.s f),
    ("localrelativepath", JVal.s relpath)])

/-- Loop body of `add_files` (files.py lines 79-98), with the `seen` list of
already-used keys and the uuid counter threaded explicitly.  `ts` is the
single `datetime.now().isoformat()` value captured at batch start. -/
def add_files_go (env : Env) (targetdir : String) (generator : Bool)
    (source : String) (script : Bool) (ts : String) :
    List String → List String → Nat → List Record
  | [], _, _ => []
  | f :: rest, seen, uid =>
    let bu :=
      if containsSubstr f "://" = false then
        add_file_normal env f targetdir generator script source uid
      else
        add_link env f uid
    let upd :=
      if seen.contains bu.1 = false then dset bu.2 "change" (JVal.s "add")
      else dset bu.2 "change" (JVal.s "update")
    let seen2 := if seen.contains bu.1 = false then seen ++ [bu.1] else seen
    dset upd "ts" (JVal.s ts) ::
      add_files_go env targetdir generator source script ts rest seen2 (uid + 1)

/-- Embedding of `add_files(args, targetdir, generator, source, script)` (files.py lines
72-99). -/
def add_files (env : Env) (args : List String) (targetdir : String)
    (generator : Bool) (source : String) (script : Bool) (ts : String) :
    List Record :=
  add_files_go env targetdir generator source script ts args [] 0

/-- The relativepath value of a record (`h['relativepath']`). -/
def rpath (r : Record) : Option JVal := List.lookup "relativepath" r

/-- One iteration of the manifest-merge loop in `add` (files.py lines
352-360): replace the first resource with the same relativepath in place,
else append the new record. -/
def upsertResource : List Record → Record → List Record
  | [], h => [h]
  | r :: rest, h =>
    if rpath h = rpath r then h :: rest else r :: upsertResource rest h

/-- The error raised by `add` when `execute` is true: the name `repomanager`
passed to `run_executable` (files.py line 336) is not bound anywhere in the
module, so Python raises `NameError` before `run_executable` is entered. -/
inductive AddError where
  | nameErrorRepomanager
  deriving DecidableEq, Repr

/-- Embedding of `add(repo, args, execute, generator, targetdir, includes, script,
source)` (files.py lines 321-365), acting on the manifest's `resources`
array.  The `execute = False` branch gathers records with `add_files` and,
when at least one record results, merges each into the resources by the
relativepath upsert; the `execute = True` branch evaluates the unbound name
`repomanager` and therefore raises before producing any record.  The copy
into managed storage and the manifest file I/O are boundary effects; the
returned value is the resources array that would be written back. -/
def add (env : Env) (resources : List Record) (args : List String)
    (execute generator : Bool) (targetdir : String) (includes : List String)
    (script : Bool) (source : String) (ts : String) :
    Except AddError (List Record) :=
  if execute = false then
    let files := add_files env args targetdir generator source script ts
    if 0 < files.length then
      Except.ok (files.foldl upsertResource resources)
    else
      Except.ok resources
  else
    Except.error AddError.nameErrorRepomanager

/-- The manifest contents after a call of `add`: an uncaught exception
leaves the manifest file untouched. -/
def manifestAfter (resources : List Record) :
    Except AddError (List Record) → List Record
  | Except.ok m => m
  | Except.error _ => resources

/-! ### Execution-trace capture (`extract_files`, files.py lines 105-238) -/

/-- Boundary collaborators used by `extract_files`: `os.path.exists`,
`os.path.isfile`, `os.path.relpath(f, ".")` and `fnmatch.fnmatch`. -/
structure TraceEnv where
  pathExists : String → Bool
  isFile : String → Bool
  relpathDot : String → String
  fnmatch : String → String → Bool

/-- The newline character: `.` in the trace-log regexes does not match it. -/
def newlineChar : Char := Char.ofNat 10

/-- The double-quote character. -/
def dquote : Char := Char.ofNat 34

/-- The single-quote character. -/
def squote : Char := Char.ofNat 39

/-- The regex character class containing the two quote characters. -/
def isQuoteChar (c : Char) : Bool := c = dquote || c = squote

/-- The lazy group `(.+?)` followed by a terminator in class `stop`: the
shortest non-empty newline-free prefix whose following character satisfies
`stop`.  Returns `none` when no such split exists (the regex then fails at
this start position). -/
def lazyCapture (stop : Char → Bool) : List Char → Option (List Char)
  | [] => none
  | c :: rest =>
    if c = newlineChar then none
    else
      match rest with
      | [] => none
      | d :: _ =>
        if stop d then some [c]
        else (lazyCapture stop rest).map (fun cap => c :: cap)

/-- Attempt of the pattern you get from files.py line 122,
`open\([b]["\'](.+?)["\']`, anchored at the head of `l`. -/
def tryOpenB (l : List Char) : Option (List Char) :=
  match l with
  | 'o' :: 'p' :: 'e' :: 'n' :: '(' :: 'b' :: q :: tail =>
    if isQuoteChar q then lazyCapture isQuoteChar tail else none
  | _ => none

/-- Search of `re.search` for the byte-string pattern: first start position at which
the whole pattern matches. -/
def searchB : List Char → Option (List Char)
  | [] => none
  | c :: rest =>
    match tryOpenB (c :: rest) with
    | some cap => some cap
    | none => searchB rest

/-- Attempt of the pattern from files.py line 124, `open\("(.+?)\"`,
anchored at the head of `l`. -/
def tryOpenQ (l : List Char) : Option (List Char) :=
  match l with
  | 'o' :: 'p' :: 'e' :: 'n' :: '(' :: q :: tail =>
    if q = dquote then lazyCapture (fun c => c = dquote) tail else none
  | _ => none

/-- Search of `re.search` for the plain double-quoted pattern. -/
def searchQ : List Char → Option (List Char)
  | [] => none
  | c :: rest =>
    match tryOpenQ (c :: rest) with
    | some cap => some cap
    | none => searchQ rest

/-- Lines 122-129 of files.py: try the byte-string convention first, then
the plain double-quoted convention. -/
def matchOpenLine (l : List Char) : Option (List Char) :=
  match searchB l with
  | some cap => some cap
  | none => searchQ l

/-- The per-path accumulator of `extract_files`: a dict from matched
relative path to its list of observed actions, in insertion order. -/
abbrev AList := List (String × List String)

/-- Python `files[matchedfile].append(action)` (files.py line 147): append the
action to the list stored under `mf`. -/
def appendAction : AList → String → String → AList
  | [], mf, a => [(mf, [a])]
  | (k, v) :: rest, mf, a =>
    if k = mf then (k, v ++ [a]) :: rest else (k, v) :: appendAction rest mf a

/-- Body of the `for i in includes` loop (files.py lines 141-147). -/
def addActionForPattern (env : TraceEnv) (mfr action : String)
    (files : AList) (pat : String) : AList :=
  if env.fnmatch mfr pat then
    match List.lookup mfr files with
    | none => files ++ [(mfr, [action])]
    | some acts =>
      if acts.contains action then files else appendAction files mfr action
  else files

/-- Processing of one (already stripped) trace line (files.py lines
117-147): extract the opened path, keep it if it is an existing regular
file, classify the access by the `O_RDONLY` token, relativise the path and
record the action under every matching include pattern. -/
def processLine (env : TraceEnv) (includes : List String)
    (files : AList) (l : String) : AList :=
  match matchOpenLine l.data with
  | none => files
  | some mfChars =>
    let mf := String.mk mfChars
    if env.pathExists mf && env.isFile mf then
      let action := if containsSubstr l "O_RDONLY" then "input" else "output"
      let mfr := env.relpathDot mf
      includes.foldl (addActionForPattern env mfr action) files
    else files

/-- Line pre-filter of files.py line 116: keep lines containing `open(`
and strip them. -/
def tracedLines (lines : List String) : List String :=
  (lines.filter (fun l => containsSubstr l "open(")).map pyStrip

/-- The scanning phase of `extract_files` (files.py lines 115-147): fold
the per-line processing over the filtered, stripped log lines. -/
def extract_files_scan (env : TraceEnv) (lines includes : List String) :
    AList :=
  (tracedLines lines).foldl (processLine env includes) []

/-- Outcome of `extract_files` at the branch on files.py lines 151-153:
either the empty-result early return (after the no-match notice is
printed), or entry into the interactive curation rounds carrying the
accumulated candidates. -/
inductive ExtractOutcome where
  | noMatches
  | interactive (files : AList)
  deriving DecidableEq, Repr

/-- Embedding of `extract_files` up to and including the early-return branch (files.py
lines 151-153): with no surviving candidate it prints the notice and
returns `[]` without entering either editor round-trip; otherwise it
proceeds to curation with the accumulated candidate dict. -/
def extract_files_phase1 (env : TraceEnv) (lines includes : List String) :
    ExtractOutcome :=
  let files := extract_files_scan env lines includes
  if files.length = 0 then ExtractOutcome.noMatches
  else ExtractOutcome.interactive files

/-- Whether a raw log line contributes a candidate in the scanning phase:
its stripped form yields an opened path that exists, is a regular file and
whose relative form matches at least one include pattern. -/
def lineSurvives (env : TraceEnv) (includes : List String) (l : String) :
    Bool :=
  match matchOpenLine (pyStrip l).data with
  | none => false
  | some mfChars =>
    let mf := String.mk mfChars
    env.pathExists mf && env.isFile mf &&
      includes.any (fun i => env.fnmatch (env.relpathDot mf) i)

/-- The action-set update performed for a surviving line, as a function of
the previously recorded actions of the path (files.py lines 143-147): a
first sighting records the singleton, a repeat with a recorded action is a
no-op, a different-mode open appends the second action. -/
def insertAction : Option (List String) → String → List String
  | none, a => [a]
  | some acts, a => if acts.contains a then acts else acts ++ [a]

/-! ### `find_executable_commitpath` (files.py lines 240-259) -/

/-- Boundary collaborators of `find_executable_commitpath`:
`os.path.exists`, `os.path.realpath`, the repository manager's
`permalink(repo, f)` pair, and `os.environ['HOME']`. -/
structure ExecEnv where
  pathExists : String → Bool
  realpath : String → String
  permalink : String → Option String × Option String
  home : String

/-- Embedding of `find_executable_commitpath(repomanager, repo, args)` (files.py lines
240-259): scan the arguments in order; for the first existing path, resolve
it with `realpath` and return the repository manager's `(relpath,
permalink)` when the permalink is present; failing that, return the
resolved path alone when `HOME` occurs in it; otherwise keep scanning, and
return `(None, None)` when the arguments are exhausted. -/
def find_executable_commitpath (env : ExecEnv) :
    List String → Option String × Option String
  | [] => (none, none)
  | f :: rest =>
    if env.pathExists f then
      let rf := env.realpath f
      let rp := env.permalink rf
      if rp.2.isSome then rp
      else if containsSubstr rf env.home then (some rf, none)
      else find_executable_commitpath env rest
    else find_executable_commitpath env rest

/-! ### Instrumentation base framework (`instrumentation.py`) -/

/-- The attribute state of an `InstrumentationBase` object after
`__init__` (instrumentation.py lines 19-24). -/
structure InstrumentationBase where
  name : String
  version : String
  description : String
  support : List String
  deriving DecidableEq, Repr

/-- The base class's overridable `initialize` hook (instrumentation.py
lines 26-27): the default is a no-op on the object. -/
def initHookDefault (s : InstrumentationBase) : InstrumentationBase := s

/-- Embedding of `InstrumentationBase.__init__(name, version, description, supported)`
(instrumentation.py lines 19-24): set the identity fields, set `support`
to the supplied aliases plus the provider's own name, then invoke the
(possibly overridden) `initialize` hook on the constructed object.  The
Python default for `supported` is the empty list. -/
def instrumentationBaseInit (hook : InstrumentationBase → InstrumentationBase)
    (name version description : String) (supported : List String) :
    InstrumentationBase :=
  hook { name := name, version := version, description := description,
         support := supported ++ [name] }

/-! ### Concrete sample data used to exercise the theorems on closed inputs -/

/-- A concrete intake environment. -/
def envDemo : Env :=
  { sha256 := fun _ => "deadbeef", mimeGuess := fun _ => none,
    relpathCwd := fun f => f, uuidGen := fun n => toString n }

/-- A concrete trace environment in which every path exists, is a regular
file, its relative form is itself, and a name matches any pattern exactly
when it contains `.csv`. -/
def traceEnvDemo : TraceEnv :=
  { pathExists := fun _ => true, isFile := fun _ => true,
    relpathDot := fun f => f, fnmatch := fun n _ => containsSubstr n ".csv" }

/-- A concrete trace environment in which no path exists on disk. -/
def traceEnvNone : TraceEnv :=
  { pathExists := fun _ => false, isFile := fun _ => false,
    relpathDot := fun f => f, fnmatch := fun n _ => containsSubstr n ".csv" }

/-- A concrete execution environment: one existing script under the home
directory, no permalinks. -/
def execEnvDemo : ExecEnv :=
  { pathExists := fun f => f = "/home/u/run.py", realpath := fun f => f,
    permalink := fun _ => (none, none), home := "/home/u" }

/-- A read-only open line in the plain double-quoted convention. -/
def lineDemoRead : String := "20826 open(\"/tmp/in.csv\", O_RDONLY|O_CLOEXEC) = 3"

/-- A write-mode open line for the same path. -/
def lineDemoWrite : String := "20826 open(\"/tmp/in.csv\", O_WRONLY|O_CREAT, 0666) = 4"

/-- Sample manifest records for the upsert theorems. -/
def recA : Record := [("relativepath", JVal.s "a"), ("type", JVal.s "data")]

/-- A record with a fresh relativepath. -/
def recB : Record := [("relativepath", JVal.s "b"), ("type", JVal.s "data")]

/-- A replacement record sharing `recA`'s relativepath. -/
def recA2 : Record := [("relativepath", JVal.s "a"), ("type", JVal.s "script")]

/-- The batch key under which `add_files` registers a path: the basename
for a normal file, the path itself for a remote link. -/
def batchKey (f : String) : String :=
  if containsSubstr f "://" = false then basename f else f

/-- The record emitted by `add_files` for path `f` with uuid index `uid`:
the dispatched `add_file_normal`/`add_link` record, tagged `update` when
the batch key was seen earlier in the batch and `add` otherwise, and
stamped with the batch timestamp. -/
def taggedRecord (env : Env) (targetdir : String) (generator : Bool)
    (source : String) (script : Bool) (ts : String) (f : String) (uid : Nat)
    (isSeen : Bool) : Record :=
  let bu :=
    if containsSubstr f "://" = false then
      add_file_normal env f targetdir generator script source uid
    else add_link env f uid
  dset (dset bu.2 "change" (JVal.s (if isSeen then "update" else "add")))
    "ts" (JVal.s ts)

/-! ### Theorems about the claims -/

/-- Claim C7: `add_file_normal` produces type `script` when `script` is set
and `generator` is not, `generator` when both are set, and `data` whenever
`script` is unset, regardless of `generator`. -/
theorem add_file_normal_type_spec (env : Env) (f targetdir source : String)
    (uid : Nat) :
    List.lookup "type" (add_file_normal env f targetdir false true source uid).2
      = some (JVal.s "script")
  ∧ List.lookup "type" (add_file_normal env f targetdir true true source uid).2
      = some (JVal.s "generator")
  ∧ ∀ generator : Bool,
      List.lookup "type"
          (add_file_normal env f targetdir generator false source uid).2
        = some (JVal.s "data") :=
  ⟨rfl, rfl, fun _ => rfl⟩

/-- The relativepath stored by `add_file_normal`, as a function of the
target directory. -/
theorem lookup_rpath_add_file_normal (env : Env) (f targetdir source : String)
    (generator script : Bool) (uid : Nat) :
    List.lookup "relativepath"
        (add_file_normal env f targetdir generator script source uid).2
      = some (JVal.s (if targetdir ≠ "." then joinPath targetdir (basename f)
                      else basename f)) := rfl

/-- Claim C8: `add_file_normal` sets the record's relativepath to the bare
basename of the path when the target directory is `"."`, and to the target
directory joined with the basename otherwise. -/
theorem add_file_normal_relativepath_spec (env : Env) (f source : String)
    (generator script : Bool) (uid : Nat) :
    (List.lookup "relativepath"
        (add_file_normal env f "." generator script source uid).2
      = some (JVal.s (basename f)))
  ∧ ∀ targetdir : String, targetdir ≠ "." →
      List.lookup "relativepath"
          (add_file_normal env f targetdir generator script source uid).2
        = some (JVal.s (joinPath targetdir (basename f))) := by
  constructor
  · rw [lookup_rpath_add_file_normal]
    simp
  · intro targetdir h
    rw [lookup_rpath_add_file_normal, if_pos h]

/-- Witness for C8 at a concrete input with a non-trivial target directory. -/
theorem add_file_normal_relativepath_spec_witness :
    List.lookup "relativepath"
        (add_file_normal envDemo "d/x.csv" "sub" false false "s" 0).2
      = some (JVal.s (joinPath "sub" (basename "d/x.csv"))) :=
  (add_file_normal_relativepath_spec envDemo "d/x.csv" "s" false false 0).2
    "sub" (by decide)

/-- Counterexample to claim C9 as stated: for the path
`https://x/data.csv` (which contains `://`), the record built by `add_link`
does not omit the local-path fields — both keys are present, bound to
`None` (lines 33-34 of files.py). -/
theorem add_link_absent_fields_counterexample :
    containsSubstr "https://x/data.csv" "://" = true
  ∧ List.lookup "localfullpath" (add_link envDemo "https://x/data.csv" 0).2
      ≠ none
  ∧ List.lookup "localrelativepath" (add_link envDemo "https://x/data.csv" 0).2
      ≠ none := by
  refine ⟨by decide, ?_, ?_⟩ <;> decide

/-- Claim C9 (amended): for every path containing `://`, `add_link` returns
a pair keyed by the path itself whose record has type `data` and an empty
sha256, and whose `localfullpath` and `localrelativepath` fields are
present but hold the null value (no local path locations). -/
theorem add_link_spec (env : Env) (f : String) (uid : Nat)
    (h : containsSubstr f "://" = true) :
    (add_link env f uid).1 = f
  ∧ List.lookup "type" (add_link env f uid).2 = some (JVal.s "data")
  ∧ List.lookup "sha256" (add_link env f uid).2 = some (JVal.s "")
  ∧ List.lookup "localfullpath" (add_link env f uid).2 = some JVal.n
  ∧ List.lookup "localrelativepath" (add_link env f uid).2 = some JVal.n :=
  ⟨rfl, rfl, rfl, rfl, rfl⟩

/-- Witness for the amended C9 at a concrete link. -/
theorem add_link_spec_witness :
    (add_link envDemo "https://x/data.csv" 0).1 = "https://x/data.csv"
  ∧ List.lookup "type" (add_link envDemo "https://x/data.csv" 0).2
      = some (JVal.s "data")
  ∧ List.lookup "sha256" (add_link envDemo "https://x/data.csv" 0).2
      = some (JVal.s "")
  ∧ List.lookup "localfullpath" (add_link envDemo "https://x/data.csv" 0).2
      = some JVal.n
  ∧ List.lookup "localrelativepath" (add_link envDemo "https://x/data.csv" 0).2
      = some JVal.n :=
  add_link_spec envDemo "https://x/data.csv" 0 (by decide)

/-- Claim C2: a call of `add` with the execute flag set fails with the
unbound-name error on `repomanager` before any record is produced, and the
manifest is left unchanged. -/
theorem add_execute_raises (env : Env) (resources : List Record)
    (args : List String) (generator : Bool) (targetdir : String)
    (includes : List String) (script : Bool) (source ts : String) :
    add env resources args true generator targetdir includes script source ts
      = Except.error AddError.nameErrorRepomanager
  ∧ manifestAfter resources
      (add env resources args true generator targetdir includes script source ts)
      = resources :=
  ⟨rfl, rfl⟩

/-- Claim C10: construction of an instrumentation provider invokes the
initialize hook on the object whose alias set is the supplied aliases plus
the provider's own name; in particular a provider named `platform` with no
extra aliases has alias set `{platform}`, and with extra alias `host` has
alias set `{host, platform}`. -/
theorem instrumentation_alias_spec :
    (∀ (hook : InstrumentationBase → InstrumentationBase)
        (n v d : String) (sup : List String),
        instrumentationBaseInit hook n v d sup
          = hook { name := n, version := v, description := d,
                   support := sup ++ [n] })
  ∧ (∀ (n v d : String) (sup : List String),
        (instrumentationBaseInit initHookDefault n v d sup).support
          = sup ++ [n])
  ∧ (instrumentationBaseInit initHookDefault "platform" "1.0" "desc" []).support
      = ["platform"]
  ∧ (instrumentationBaseInit initHookDefault "platform" "1.0" "desc"
        ["host"]).support = ["host", "platform"]
  ∧ (∀ x : String,
        x ∈ (instrumentationBaseInit initHookDefault "platform" "1.0" "desc"
              ["host"]).support
          ↔ (x = "host" ∨ x = "platform")) := by
  refine ⟨fun _ _ _ _ _ => rfl, fun _ _ _ _ => rfl, rfl, rfl, ?_⟩
  intro x
  simp [instrumentationBaseInit, initHookDefault]

/-- Appending case of the upsert: a record whose relativepath matches no
existing resource is appended. -/
theorem upsertResource_append (resources : List Record) (h : Record)
    (hnone : ∀ r ∈ resources, rpath h ≠ rpath r) :
    upsertResource resources h = resources ++ [h] := by
  induction resources with
  | nil => rfl
  | cons r rest ih =>
    have hr : rpath h ≠ rpath r := hnone r (by simp)
    simp only [upsertResource, if_neg hr, List.cons_append]
    rw [ih (fun r' hr' => hnone r' (by simp [hr']))]

/-- Replacement case of the upsert: the first resource with a matching
relativepath is replaced in place. -/
theorem upsertResource_replace (l1 : List Record) (r h : Record)
    (l2 : List Record) (hpre : ∀ r' ∈ l1, rpath h ≠ rpath r')
    (hmatch : rpath h = rpath r) :
    upsertResource (l1 ++ r :: l2) h = l1 ++ h :: l2 := by
  induction l1 with
  | nil => simp [upsertResource, if_pos hmatch]
  | cons r' rest ih =>
    have hr' : rpath h ≠ rpath r' := hpre r' (by simp)
    simp only [List.cons_append, upsertResource, if_neg hr']
    exact congrArg (List.cons r') (ih (fun r'' hr'' => hpre r'' (by simp [hr''])))

/-- Claim C1: the manifest merge performed by `add` upserts by
relativepath — a record matching no existing resource is appended (length
grows by one), a record matching an existing resource replaces the first
match in place (length unchanged), and a non-empty batch from `add_files`
is merged record by record into the resources by this upsert. -/
theorem add_manifest_upsert_spec (resources : List Record) (hrec : Record) :
    ((∀ r ∈ resources, rpath hrec ≠ rpath r) →
        upsertResource resources hrec = resources ++ [hrec]
        ∧ (upsertResource resources hrec).length = resources.length + 1)
  ∧ (∀ l1 r l2, resources = l1 ++ r :: l2 →
        (∀ r' ∈ l1, rpath hrec ≠ rpath r') → rpath hrec = rpath r →
        upsertResource resources hrec = l1 ++ hrec :: l2
        ∧ (upsertResource resources hrec).length = resources.length)
  ∧ (∀ (env : Env) (args : List String) (generator : Bool)
        (targetdir : String) (includes : List String) (script : Bool)
        (source ts : String),
        0 < (add_files env args targetdir generator source script ts).length →
        add env resources args false generator targetdir includes script
            source ts
          = Except.ok ((add_files env args targetdir generator source script
              ts).foldl upsertResource resources)) := by
  refine ⟨?_, ?_, ?_⟩
  · intro hnone
    have he := upsertResource_append resources hrec hnone
    exact ⟨he, by rw [he]; simp⟩
  · intro l1 r l2 hsplit hpre hmatch
    subst hsplit
    have he := upsertResource_replace l1 r hrec l2 hpre hmatch
    exact ⟨he, by rw [he]; simp⟩
  · intro env args generator targetdir includes script source ts hpos
    simp [add, hpos]

/-- Witness for C1: appending a fresh relativepath (length 1 → 2) and
replacing an existing one in place (length stays 2). -/
theorem add_manifest_upsert_spec_witness :
    (upsertResource [recA] recB = [recA] ++ [recB]
      ∧ (upsertResource [recA] recB).length = 1 + 1)
  ∧ (upsertResource [recA, recB] recA2 = [] ++ recA2 :: [recB]
      ∧ (upsertResource [recA, recB] recA2).length
          = ([recA, recB] : List Record).length) :=
  ⟨(add_manifest_upsert_spec [recA] recB).1 (by decide),
   (add_manifest_upsert_spec [recA, recB] recA2).2.1 [] recA [recB] rfl
     (by simp) (by decide)⟩

/-- Scanning past a prefix of non-existing arguments. -/
theorem find_exec_skip (env : ExecEnv) (l1 rest : List String)
    (h : ∀ g ∈ l1, env.pathExists g = false) :
    find_executable_commitpath env (l1 ++ rest)
      = find_executable_commitpath env rest := by
  induction l1 with
  | nil => rfl
  | cons g gs ih =>
    have hg : env.pathExists g = false := h g (by simp)
    simp only [List.cons_append, find_executable_commitpath, hg,
      Bool.false_eq_true, if_false]
    exact ih (fun g' hg' => h g' (by simp [hg']))

/-- Claim C6: `find_executable_commitpath` acts on the first argument
naming an existing path — returning the repository manager's
`(relpath, permalink)` pair when a permalink exists, returning the
canonical path with no permalink when instead the home directory occurs in
it, and returning `(none, none)` when no argument names an existing
path. -/
theorem find_executable_commitpath_spec (env : ExecEnv) (args : List String) :
    (∀ l1 f l2, args = l1 ++ f :: l2 →
        (∀ g ∈ l1, env.pathExists g = false) → env.pathExists f = true →
        (((env.permalink (env.realpath f)).2.isSome = true →
            find_executable_commitpath env args
              = env.permalink (env.realpath f))
         ∧ ((env.permalink (env.realpath f)).2 = none →
              containsSubstr (env.realpath f) env.home = true →
              find_executable_commitpath env args
                = (some (env.realpath f), none))))
  ∧ ((∀ g ∈ args, env.pathExists g = false) →
        find_executable_commitpath env args = (none, none)) := by
  constructor
  · intro l1 f l2 hsplit hskip hf
    subst hsplit
    rw [find_exec_skip env l1 (f :: l2) hskip]
    constructor
    · intro hperm
      simp only [find_executable_commitpath, hf, if_true, hperm]
    · intro hperm hhome
      have hnotsome : (env.permalink (env.realpath f)).2.isSome = false := by
        rw [hperm]; rfl
      simp only [find_executable_commitpath, hf, if_true, hnotsome,
        Bool.false_eq_true, if_false, hhome]
  · intro h
    induction args with
    | nil => rfl
    | cons g gs ih =>
      have hg : env.pathExists g = false := h g (by simp)
      simp only [find_executable_commitpath, hg, Bool.false_eq_true, if_false]
      exact ih (fun g' hg' => h g' (by simp [hg']))

/-- Witness for C6: the only existing argument lies under the home
directory and has no permalink, so its canonical path is returned alone;
with no existing argument the result is `(none, none)`. -/
theorem find_executable_commitpath_spec_witness :
    find_executable_commitpath execEnvDemo ["-v", "/home/u/run.py"]
      = (some (execEnvDemo.realpath "/home/u/run.py"), none)
  ∧ find_executable_commitpath execEnvDemo ["-v", "--fast"] = (none, none) :=
  ⟨((find_executable_commitpath_spec execEnvDemo ["-v", "/home/u/run.py"]).1
      ["-v"] "/home/u/run.py" [] rfl (by decide) (by decide)).2 rfl (by decide),
   (find_executable_commitpath_spec execEnvDemo ["-v", "--fast"]).2
     (by decide)⟩

/-- The key produced by the dispatch in `add_files` is the batch key. -/
theorem key_of_dispatch (env : Env) (f targetdir source : String)
    (generator script : Bool) (uid : Nat) :
    (if containsSubstr f "://" = false then
        add_file_normal env f targetdir generator script source uid
      else add_link env f uid).1 = batchKey f := by
  by_cases hc : containsSubstr f "://" = false <;>
    simp [batchKey, hc, add_file_normal, add_link]

/-- String boolean equality agrees with decidable equality. -/
theorem beq_eq_decide_str (a c : String) : (a == c) = decide (a = c) := by
  by_cases h : a = c <;> simp [h]

/-- Membership in a list extended on the right by one element. -/
theorem contains_append_one (l : List String) (x k : String) :
    (l ++ [x]).contains k = (l.contains k || (k == x)) := by
  induction l with
  | nil => simp [List.contains_cons, beq_eq_decide_str]
  | cons a as ih =>
    simp [List.contains_cons, ih, Bool.or_assoc, beq_eq_decide_str]

/-- One unfolding of the `add_files` loop, phrased with `taggedRecord`. -/
theorem add_files_go_head (env : Env) (targetdir : String) (generator : Bool)
    (source : String) (script : Bool) (ts : String) (f : String)
    (rest seen : List String) (uid : Nat) :
    add_files_go env targetdir generator source script ts (f :: rest) seen uid
      = taggedRecord env targetdir generator source script ts f uid
          (seen.contains (batchKey f))
        :: add_files_go env targetdir generator source script ts rest
            (if seen.contains (batchKey f) = false then seen ++ [batchKey f]
             else seen)
            (uid + 1) := by
  simp only [add_files_go, taggedRecord,
    key_of_dispatch env f targetdir source generator script uid]
  cases hb : seen.contains (batchKey f) <;> simp [hb]

/-- Length preservation of the `add_files` loop. -/
theorem add_files_go_length (env : Env) (targetdir : String) (generator : Bool)
    (source : String) (script : Bool) (ts : String) :
    ∀ (args seen : List String) (uid : Nat),
      (add_files_go env targetdir generator source script ts args seen
        uid).length = args.length := by
  intro args
  induction args with
  | nil => intro seen uid; rfl
  | cons f rest ih =>
    intro seen uid
    rw [add_files_go_head]
    simp [ih]

/-- Indexed characterization of the `add_files` loop: the record at index
`i` is the dispatched record for the `i`-th path, tagged by whether its
batch key occurs in the initial seen-set or among the keys of the earlier
paths. -/
theorem add_files_go_get (env : Env) (targetdir : String) (generator : Bool)
    (source : String) (script : Bool) (ts : String) :
    ∀ (args seen : List String) (uid i : Nat) (hi : i < args.length),
      (add_files_go env targetdir generator source script ts args seen
          uid)[i]?
        = some (taggedRecord env targetdir generator source script ts
            (args.get ⟨i, hi⟩) (uid + i)
            (seen.contains (batchKey (args.get ⟨i, hi⟩))
              || ((args.take i).map batchKey).contains
                  (batchKey (args.get ⟨i, hi⟩)))) := by
  intro args
  induction args with
  | nil => intro seen uid i hi; simp at hi
  | cons f rest ih =>
    intro seen uid i hi
    rw [add_files_go_head]
    cases i with
    | zero => simp
    | succ j =>
      have hj : j < rest.length := Nat.lt_of_succ_lt_succ hi
      simp only [List.getElem?_cons_succ]
      rw [ih _ (uid + 1) j hj]
      have hget : (f :: rest).get ⟨j + 1, hi⟩ = rest.get ⟨j, hj⟩ := rfl
      rw [hget]
      have hnat : uid + 1 + j = uid + (j + 1) := by omega
      rw [hnat]
      have hbool :
          ((if seen.contains (batchKey f) = false then seen ++ [batchKey f]
            else seen).contains (batchKey (rest.get ⟨j, hj⟩))
           || ((rest.take j).map batchKey).contains
                (batchKey (rest.get ⟨j, hj⟩)))
          = (seen.contains (batchKey (rest.get ⟨j, hj⟩))
             || (((f :: rest).take (j + 1)).map batchKey).contains
                  (batchKey (rest.get ⟨j, hj⟩))) := by
        have htake : ((f :: rest).take (j + 1)).map batchKey
            = batchKey f :: (rest.take j).map batchKey := by simp
        rw [htake, List.contains_cons]
        cases hb : seen.contains (batchKey f) with
        | false =>
          rw [if_pos rfl, contains_append_one, Bool.or_assoc]
        | true =>
          rw [if_neg (by simp [hb])]
          by_cases hk : batchKey (rest.get ⟨j, hj⟩) = batchKey f
          · rw [hk, hb]
            simp
          · have : (batchKey (rest.get ⟨j, hj⟩) == batchKey f) = false := by
              simpa using hk
            rw [this]
            simp
      rw [hbool]

/-- Looking up a key just set by `dset` yields the new value. -/
theorem lookup_dset_self (r : Record) (k : String) (v : JVal) :
    List.lookup k (dset r k v) = some v := by
  induction r with
  | nil => simp [dset, List.lookup]
  | cons p rest ih =>
    obtain ⟨k0, v0⟩ := p
    by_cases hk : k0 = k
    · subst hk
      simp [dset, List.lookup]
    · have hne : (k == k0) = false := by simpa using Ne.symm hk
      simp [dset, hk, List.lookup, hne, ih]

/-- Updating with `dset` on a different key does not change a lookup. -/
theorem lookup_dset_other (r : Record) (k k' : String) (v : JVal)
    (h : k ≠ k') :
    List.lookup k (dset r k' v) = List.lookup k r := by
  have hne0 : (k == k') = false := by simpa using h
  induction r with
  | nil => simp [dset, List.lookup, hne0]
  | cons p rest ih =>
    obtain ⟨k0, v0⟩ := p
    by_cases hk : k0 = k'
    · subst hk
      have hne : (k == k0) = false := by simpa using h
      simp [dset, List.lookup, hne]
    · by_cases hkk : k = k0
      · subst hkk
        simp [dset, hk, List.lookup]
      · have hne : (k == k0) = false := by simpa using hkk
        simp [dset, hk, List.lookup, hne, ih]

/-- Every record emitted by the `add_files` loop carries the batch
timestamp. -/
theorem add_files_go_ts (env : Env) (targetdir : String) (generator : Bool)
    (source : String) (script : Bool) (ts : String) :
    ∀ (args seen : List String) (uid : Nat) (r : Record),
      r ∈ add_files_go env targetdir generator source script ts args seen
            uid →
      List.lookup "ts" r = some (JVal.s ts) := by
  intro args
  induction args with
  | nil => intro seen uid r hr; simp [add_files_go] at hr
  | cons f rest ih =>
    intro seen uid r hr
    rw [add_files_go_head] at hr
    rcases List.mem_cons.mp hr with h | h
    · rw [h]
      simp [taggedRecord, lookup_dset_self]
    · exact ih _ _ r h

/-- The `change` tag stored in a tagged record. -/
theorem lookup_change_taggedRecord (env : Env) (targetdir : String)
    (generator : Bool) (source : String) (script : Bool) (ts f : String)
    (uid : Nat) (b : Bool) :
    List.lookup "change"
        (taggedRecord env targetdir generator source script ts f uid b)
      = some (JVal.s (if b then "update" else "add")) := by
  unfold taggedRecord
  rw [lookup_dset_other _ _ _ _ (by decide), lookup_dset_self]

/-- Claim C3: `add_files` dispatches each path on the `://` test, emits one
record per path, tags the first record under a given batch key with
`change = add` and every later record with the same key with
`change = update`, and stamps every record of the batch with the single
batch timestamp. -/
theorem add_files_spec (env : Env) (args : List String) (targetdir : String)
    (generator : Bool) (source : String) (script : Bool) (ts : String)
    (i : Nat) (hi : i < args.length) :
    (add_files env args targetdir generator source script ts).length
      = args.length
  ∧ (add_files env args targetdir generator source script ts)[i]?
      = some (taggedRecord env targetdir generator source script ts
          (args.get ⟨i, hi⟩) i
          (((args.take i).map batchKey).contains
            (batchKey (args.get ⟨i, hi⟩))))
  ∧ (∀ r ∈ add_files env args targetdir generator source script ts,
        List.lookup "ts" r = some (JVal.s ts))
  ∧ (∀ b : Bool,
        List.lookup "change"
            (taggedRecord env targetdir generator source script ts
              (args.get ⟨i, hi⟩) i b)
          = some (JVal.s (if b then "update" else "add"))) := by
  refine ⟨add_files_go_length env targetdir generator source script ts args
    [] 0, ?_, ?_, ?_⟩
  · have h := add_files_go_get env targetdir generator source script ts args
      [] 0 i hi
    simpa [add_files] using h
  · intro r hr
    exact add_files_go_ts env targetdir generator source script ts args [] 0
      r hr
  · intro b
    exact lookup_change_taggedRecord env targetdir generator source script ts
      _ i b

/-- Witness for C3: two local files with the same basename — the second
record is tagged `update`, both carry the batch timestamp. -/
theorem add_files_spec_witness :
    (add_files envDemo ["a/x.csv", "b/x.csv"] "." false "src" false
        "TS").length = 2
  ∧ (add_files envDemo ["a/x.csv", "b/x.csv"] "." false "src" false
        "TS")[1]?
      = some (taggedRecord envDemo "." false "src" false "TS" "b/x.csv" 1
          true)
  ∧ List.lookup "change"
        (taggedRecord envDemo "." false "src" false "TS" "b/x.csv" 1 true)
      = some (JVal.s "update") := by
  have h := add_files_spec envDemo ["a/x.csv", "b/x.csv"] "." false "src"
    false "TS" 1 (by decide)
  exact ⟨h.1, h.2.1, h.2.2.2 true⟩

/-- A lookup that already succeeds is unchanged by appending. -/
theorem lookup_append_of_found (files : AList) (tail : AList) (mf : String)
    (acts : List String) (h : List.lookup mf files = some acts) :
    List.lookup mf (files ++ tail) = some acts := by
  induction files with
  | nil => simp [List.lookup] at h
  | cons p rest ih =>
    obtain ⟨k, v⟩ := p
    by_cases hk : mf = k
    · subst hk
      simpa [List.lookup] using h
    · have hne : (mf == k) = false := by simpa using hk
      simp only [List.lookup, hne, List.cons_append] at h ⊢
      exact ih h

/-- A failed lookup finds a binding appended on the right. -/
theorem lookup_append_of_notfound (files : AList) (mf : String)
    (v : List String) (h : List.lookup mf files = none) :
    List.lookup mf (files ++ [(mf, v)]) = some v := by
  induction files with
  | nil => simp [List.lookup]
  | cons p rest ih =>
    obtain ⟨k, w⟩ := p
    by_cases hk : mf = k
    · subst hk
      simp [List.lookup] at h
    · have hne : (mf == k) = false := by simpa using hk
      simp only [List.lookup, hne, List.cons_append] at h ⊢
      exact ih h

/-- Applying `appendAction` appends the action to the list stored under the key. -/
theorem lookup_appendAction (files : AList) (mf a : String)
    (acts : List String) (h : List.lookup mf files = some acts) :
    List.lookup mf (appendAction files mf a) = some (acts ++ [a]) := by
  induction files with
  | nil => simp [List.lookup] at h
  | cons p rest ih =>
    obtain ⟨k, v⟩ := p
    by_cases hk : k = mf
    · subst hk
      have hv : v = acts := by simpa [List.lookup] using h
      subst hv
      simp [appendAction, List.lookup]
    · have hne : (mf == k) = false := by simpa using Ne.symm hk
      simp only [List.lookup, hne] at h
      simp only [appendAction, if_neg hk, List.lookup, hne]
      exact ih h

/-- The per-pattern update is a no-op when the path already records the
action of the line. -/
theorem addActionForPattern_of_found (env : TraceEnv) (mfr action p : String)
    (files : AList) (acts : List String)
    (hl : List.lookup mfr files = some acts)
    (ha : acts.contains action = true) :
    addActionForPattern env mfr action files p = files := by
  unfold addActionForPattern
  rw [hl]
  by_cases hm : env.fnmatch mfr p
  · rw [if_pos hm]
    show (if acts.contains action then files
          else appendAction files mfr action) = files
    rw [if_pos ha]
  · rw [if_neg hm]

/-- Once the path's recorded actions contain the action of the line, the
remaining include patterns leave the accumulator unchanged. -/
theorem foldl_addAction_stay (env : TraceEnv) (mfr action : String)
    (pats : List String) (files : AList) (acts : List String)
    (hl : List.lookup mfr files = some acts)
    (ha : acts.contains action = true) :
    pats.foldl (addActionForPattern env mfr action) files = files := by
  induction pats with
  | nil => rfl
  | cons p ps ih =>
    rw [List.foldl_cons,
      addActionForPattern_of_found env mfr action p files acts hl ha, ih]

/-- As soon as some include pattern matches, folding the per-pattern update
over the pattern list performs exactly one `insertAction` on the recorded
actions of the path. -/
theorem foldl_addAction_insert (env : TraceEnv) (mfr action : String)
    (pats : List String) (files : AList)
    (hany : pats.any (fun i => env.fnmatch mfr i) = true) :
    List.lookup mfr (pats.foldl (addActionForPattern env mfr action) files)
      = some (insertAction (List.lookup mfr files) action) := by
  induction pats generalizing files with
  | nil => simp at hany
  | cons p ps ih =>
    by_cases hm : env.fnmatch mfr p
    · cases hl : List.lookup mfr files with
      | none =>
        have hstep : addActionForPattern env mfr action files p
            = files ++ [(mfr, [action])] := by
          unfold addActionForPattern
          rw [hl, if_pos hm]
        have h2 : List.lookup mfr (files ++ [(mfr, [action])])
            = some [action] := lookup_append_of_notfound files mfr [action] hl
        have hcont : ([action] : List String).contains action = true := by
          rw [List.contains_cons]
          simp
        rw [List.foldl_cons, hstep,
          foldl_addAction_stay env mfr action ps _ [action] h2 hcont, h2]
        rfl
      | some acts =>
        by_cases hc : acts.contains action
        · have hstep : addActionForPattern env mfr action files p = files :=
            addActionForPattern_of_found env mfr action p files acts hl hc
          rw [List.foldl_cons, hstep,
            foldl_addAction_stay env mfr action ps files acts hl hc, hl]
          show some acts
            = some (if acts.contains action then acts else acts ++ [action])
          rw [if_pos hc]
        · have hstep : addActionForPattern env mfr action files p
              = appendAction files mfr action := by
            unfold addActionForPattern
            rw [hl, if_pos hm]
            show (if acts.contains action then files
                  else appendAction files mfr action) = _
            rw [if_neg hc]
          have h2 : List.lookup mfr (appendAction files mfr action)
              = some (acts ++ [action]) :=
            lookup_appendAction files mfr action acts hl
          have hc2 : (acts ++ [action]).contains action = true := by
            rw [contains_append_one]
            simp
          rw [List.foldl_cons, hstep,
            foldl_addAction_stay env mfr action ps _ (acts ++ [action]) h2
              hc2, h2]
          show some (acts ++ [action])
            = some (if acts.contains action then acts else acts ++ [action])
          rw [if_neg hc]
    · have hstep : addActionForPattern env mfr action files p = files := by
        simp [addActionForPattern, hm]
      have hany' : ps.any (fun i => env.fnmatch mfr i) = true := by
        simpa [hm] using hany
      rw [List.foldl_cons, hstep]
      exact ih files hany'

/-- Claim C4: for a trace line whose extracted path is an existing regular
file matching at least one include pattern, `processLine` classifies the
access as `input` exactly when the line carries `O_RDONLY` (else `output`)
and updates the path's recorded actions by `insertAction`; the update is a
no-op for an already-recorded action and appends a different-mode action. -/
theorem extract_files_classify (env : TraceEnv) (includes : List String)
    (files : AList) (l : String) (mfChars : List Char)
    (h1 : matchOpenLine l.data = some mfChars)
    (h2 : env.pathExists (String.mk mfChars) = true)
    (h3 : env.isFile (String.mk mfChars) = true)
    (h4 : includes.any
        (fun i => env.fnmatch (env.relpathDot (String.mk mfChars)) i)
      = true) :
    List.lookup (env.relpathDot (String.mk mfChars))
        (processLine env includes files l)
      = some (insertAction
          (List.lookup (env.relpathDot (String.mk mfChars)) files)
          (if containsSubstr l "O_RDONLY" then "input" else "output"))
  ∧ (∀ acts : List String,
      acts.contains
          (if containsSubstr l "O_RDONLY" then "input" else "output")
        = true →
      insertAction (some acts)
          (if containsSubstr l "O_RDONLY" then "input" else "output")
        = acts)
  ∧ (∀ acts : List String,
      acts.contains
          (if containsSubstr l "O_RDONLY" then "input" else "output")
        = false →
      insertAction (some acts)
          (if containsSubstr l "O_RDONLY" then "input" else "output")
        = acts
          ++ [if containsSubstr l "O_RDONLY" then "input" else "output"]) := by
  refine ⟨?_, ?_, ?_⟩
  · unfold processLine
    rw [h1]
    simp only [h2, h3, Bool.and_self, if_true]
    exact foldl_addAction_insert env _ _ includes files h4
  · intro acts h
    show (if acts.contains
            (if containsSubstr l "O_RDONLY" then "input" else "output")
          then acts
          else acts
            ++ [if containsSubstr l "O_RDONLY" then "input" else "output"])
        = acts
    rw [if_pos h]
  · intro acts h
    show (if acts.contains
            (if containsSubstr l "O_RDONLY" then "input" else "output")
          then acts
          else acts
            ++ [if containsSubstr l "O_RDONLY" then "input" else "output"])
        = acts
          ++ [if containsSubstr l "O_RDONLY" then "input" else "output"]
    rw [if_neg (by rw [h]; exact Bool.false_ne_true)]

/-- Witness for C4, mirroring the spec's example: a read-only open of
`/tmp/in.csv` yields actions `[input]`; a subsequent write-mode open of the
same path appends `output`; a repeated read-only open leaves the set
unchanged. -/
theorem extract_files_classify_witness :
    List.lookup "/tmp/in.csv" (processLine traceEnvDemo ["*.csv"] []
        lineDemoRead) = some ["input"]
  ∧ List.lookup "/tmp/in.csv" (processLine traceEnvDemo ["*.csv"]
        [("/tmp/in.csv", ["input"])] lineDemoWrite)
      = some ["input", "output"]
  ∧ List.lookup "/tmp/in.csv" (processLine traceEnvDemo ["*.csv"]
        [("/tmp/in.csv", ["input"])] lineDemoRead) = some ["input"] := by
  have hA := extract_files_classify traceEnvDemo ["*.csv"] [] lineDemoRead
    "/tmp/in.csv".data (by decide) rfl rfl (by decide)
  have hB := extract_files_classify traceEnvDemo ["*.csv"]
    [("/tmp/in.csv", ["input"])] lineDemoWrite
    "/tmp/in.csv".data (by decide) rfl rfl (by decide)
  have hC := extract_files_classify traceEnvDemo ["*.csv"]
    [("/tmp/in.csv", ["input"])] lineDemoRead
    "/tmp/in.csv".data (by decide) rfl rfl (by decide)
  exact ⟨hA.1, hB.1, hC.1⟩

/-- When no include pattern matches, the per-pattern fold is the
identity. -/
theorem foldl_addAction_nomatch (env : TraceEnv) (mfr action : String)
    (pats : List String) (files : AList)
    (h : ∀ p ∈ pats, env.fnmatch mfr p = false) :
    pats.foldl (addActionForPattern env mfr action) files = files := by
  induction pats with
  | nil => rfl
  | cons p ps ih =>
    have hstep : addActionForPattern env mfr action files p = files := by
      simp [addActionForPattern, h p (by simp)]
    rw [List.foldl_cons, hstep]
    exact ih (fun p' hp' => h p' (by simp [hp']))

/-- Reduction of `lineSurvives` when the stripped line parses. -/
theorem lineSurvives_eq_some (env : TraceEnv) (includes : List String)
    (l : String) (mfChars : List Char)
    (hm : matchOpenLine (pyStrip l).data = some mfChars) :
    lineSurvives env includes l
      = (env.pathExists (String.mk mfChars) && env.isFile (String.mk mfChars)
         && includes.any
             (fun i => env.fnmatch (env.relpathDot (String.mk mfChars)) i)) := by
  unfold lineSurvives
  rw [hm]

/-- Reduction of `processLine` when the line parses. -/
theorem processLine_eq_some (env : TraceEnv) (includes : List String)
    (files : AList) (l : String) (mfChars : List Char)
    (hm : matchOpenLine l.data = some mfChars) :
    processLine env includes files l
      = if env.pathExists (String.mk mfChars)
            && env.isFile (String.mk mfChars) then
          includes.foldl
            (addActionForPattern env (env.relpathDot (String.mk mfChars))
              (if containsSubstr l "O_RDONLY" then "input" else "output"))
            files
        else files := by
  unfold processLine
  rw [hm]

/-- A line that survives none of the filters leaves the accumulator
unchanged. -/
theorem processLine_no_survive (env : TraceEnv) (includes : List String)
    (l : String) (files : AList)
    (h : lineSurvives env includes l = false) :
    processLine env includes files (pyStrip l) = files := by
  cases hm : matchOpenLine (pyStrip l).data with
  | none =>
    unfold processLine
    rw [hm]
  | some mfChars =>
    rw [lineSurvives_eq_some env includes l mfChars hm] at h
    rw [processLine_eq_some env includes files (pyStrip l) mfChars hm]
    cases hex : (env.pathExists (String.mk mfChars)
        && env.isFile (String.mk mfChars)) with
    | false => simp [hex]
    | true =>
      rw [hex, Bool.true_and] at h
      simp only [hex, if_true]
      exact foldl_addAction_nomatch env _ _ includes files
        (fun p hp => by simpa using List.any_eq_false.mp h p hp)

/-- Folding `processLine` over lines that each leave the accumulator
unchanged is the identity. -/
theorem foldl_processLine_id (env : TraceEnv) (includes : List String)
    (ls : List String) (fs : AList)
    (h : ∀ l ∈ ls, ∀ fs' : AList, processLine env includes fs' l = fs') :
    ls.foldl (processLine env includes) fs = fs := by
  induction ls generalizing fs with
  | nil => rfl
  | cons l rest ih =>
    rw [List.foldl_cons, h l (by simp) fs]
    exact ih fs (fun l' hl' fs' => h l' (by simp [hl']) fs')

/-- Claim C5: when no opened path in the trace log survives the existence,
regular-file and include-pattern filters, `extract_files` accumulates
nothing, notifies the operator and returns the empty result without
entering either interactive curation round-trip. -/
theorem extract_files_no_match (env : TraceEnv) (lines includes : List String)
    (h : ∀ l ∈ lines, lineSurvives env includes l = false) :
    extract_files_phase1 env lines includes = ExtractOutcome.noMatches
  ∧ extract_files_scan env lines includes = [] := by
  have hscan : extract_files_scan env lines includes = [] := by
    unfold extract_files_scan
    apply foldl_processLine_id
    intro l' hl' fs'
    unfold tracedLines at hl'
    rcases List.mem_map.mp hl' with ⟨l0, hl0, hstrip⟩
    have hl0' : l0 ∈ lines := (List.mem_filter.mp hl0).1
    rw [← hstrip]
    exact processLine_no_survive env includes l0 fs' (h l0 hl0')
  refine ⟨?_, hscan⟩
  unfold extract_files_phase1
  rw [hscan]
  rfl

/-- Witness for C5: a log whose only open line names a path that does not
exist on disk yields the empty outcome without curation. -/
theorem extract_files_no_match_witness :
    extract_files_phase1 traceEnvNone
        ["junk line", "12 open(\"/tmp/gone.csv\", O_RDONLY) = 3"] ["*.csv"]
      = ExtractOutcome.noMatches
  ∧ extract_files_scan traceEnvNone
        ["junk line", "12 open(\"/tmp/gone.csv\", O_RDONLY) = 3"] ["*.csv"]
      = [] :=
  extract_files_no_match traceEnvNone
    ["junk line", "12 open(\"/tmp/gone.csv\", O_RDONLY) = 3"] ["*.csv"]
    (by decide)

end Dgit
